import Mathlib

/-!
# BotFactory — verification of the core spec claims

A shallow embedding of the multi-tenant bot runtime, broadcast engine,
lifecycle notifier and language pipeline of the BotFactory repository
(`services/broadcast_service.py`, `services/notification_service.py`,
`services/telegram_service.py`, `services/ai_service.py`, `models.py`),
together with theorems settling the spec's testable properties.

Python exceptions are modelled with `Except`/`Option`; machine timestamps are
`Nat` minutes (a calendar day is 1440 minutes); the database tables are lists
of rows threaded through the operations exactly as the source reads and
writes them.  External oracles (the chat gateway, the AI backend, the
SQLAlchemy session) are modelled as explicit parameters recording how each
call behaves, so that every control-flow path of the source is reachable in
the model.
-/

namespace BotFactory

/-! ## Broadcast engine (`services/broadcast_service.py`)

`send_broadcast` iterates over the target bots; for each it builds a
`BroadcastDelivery` row, calls `_send_to_bot_users`, bumps one of the two
counters and then calls `db.session.add(delivery)`.  Any exception in that
`try` block is caught by a handler that records a failed delivery and bumps
`failed_sends`.  The oracle flags below make each raise point of the source
reachable: `raiseOnCreate` models `BroadcastDelivery(...)` raising before the
send is attempted, `raiseOnAdd` models `db.session.add(delivery)` raising
(which in the source happens *after* the counter was already incremented),
and `raiseInHandler` models the `except` block itself raising, which aborts
the whole run through the outer handler. -/

/-- One `BroadcastDelivery` row (per broadcast/bot attempt). -/
structure DeliveryRecord where
  botId : Nat
  userId : Nat
  delivered : Bool
  errorMessage : Option String
  deriving Repr, DecidableEq

/-- A target bot returned by `get_target_bots`, together with the oracle
describing how the external world behaves while this bot is processed.
`convs` is the list of distinct `telegram_user_id` chat ids of the bot's
conversations, each paired with the gateway outcome of
`send_broadcast_message` for that chat (exceptions inside the per-chat loop
are caught and behave like a failed send). -/
structure BotTarget where
  id : Nat
  userId : Nat
  token : Option String
  convs : List (Int × Bool)
  raiseOnCreate : Bool
  raiseOnAdd : Bool
  raiseInHandler : Bool
  deriving Repr, DecidableEq

/-- `BroadcastService._send_to_bot_users`: `False` without a token, `True`
when the bot has no conversations, otherwise `True` iff at least one
per-chat send succeeded.  All internal exceptions are caught, so the
operation is total. -/
def sendToBotUsers (b : BotTarget) : Bool :=
  match b.token with
  | none => false
  | some _ =>
    if b.convs.isEmpty then true
    else 0 < (b.convs.filter (fun c => c.2)).length

/-- The body of the per-bot loop of `BroadcastService.send_broadcast`:
returns the `BroadcastDelivery` row written for this bot together with the
increments applied to `successful_sends` and `failed_sends`, or
`Except.error` when the `except` handler itself raises (aborting the run). -/
def processBot (b : BotTarget) : Except Unit (DeliveryRecord × Nat × Nat) :=
  if b.raiseOnCreate then
    -- `BroadcastDelivery(...)` raised before any counter was touched.
    if b.raiseInHandler then Except.error ()
    else Except.ok ({ botId := b.id, userId := b.userId, delivered := false,
                      errorMessage := some "exception" }, 0, 1)
  else
    let sent := sendToBotUsers b
    let rec0 : DeliveryRecord :=
      { botId := b.id, userId := b.userId, delivered := sent,
        errorMessage := if sent then none else some "Failed to send message" }
    let s : Nat := if sent then 1 else 0
    let f : Nat := if sent then 0 else 1
    if b.raiseOnAdd then
      -- `db.session.add(delivery)` raised, *after* the increment above;
      -- the handler writes a failed record and bumps `failed_sends` again.
      if b.raiseInHandler then Except.error ()
      else Except.ok ({ botId := b.id, userId := b.userId, delivered := false,
                        errorMessage := some "exception" }, s, f + 1)
    else Except.ok (rec0, s, f)

/-- One iteration of the `for bot in target_bots` loop of `send_broadcast`,
folded over the accumulated counters and delivery rows. -/
def broadcastStep (acc : Except Unit (Nat × Nat × List DeliveryRecord))
    (b : BotTarget) : Except Unit (Nat × Nat × List DeliveryRecord) :=
  match acc with
  | Except.error e => Except.error e
  | Except.ok (s, f, recs) =>
    match processBot b with
    | Except.error e => Except.error e
    | Except.ok (r, ds, df) => Except.ok (s + ds, f + df, recs ++ [r])

/-- `BroadcastService.send_broadcast` restricted to an un-sent broadcast:
`total_bots` is the number of targets; the loop accumulates the counters and
the delivery rows; an exception escaping the per-bot handler aborts the run
(outer `except`: rollback, counters never committed).  On completion the
result is `(total_bots, successful_sends, failed_sends, delivery rows)`. -/
def sendBroadcast (targets : List BotTarget) :
    Except Unit (Nat × Nat × Nat × List DeliveryRecord) :=
  match targets.foldl broadcastStep (Except.ok (0, 0, [])) with
  | Except.error e => Except.error e
  | Except.ok (s, f, recs) => Except.ok (targets.length, s, f, recs)

/-- A bot whose gateway send succeeds but whose `db.session.add(delivery)`
raises: the source counts it in both counters. -/
def c1DoubleBot : BotTarget :=
  { id := 1, userId := 1, token := some "T", convs := [],
    raiseOnCreate := false, raiseOnAdd := true, raiseInHandler := false }

/-- A well-behaved target bot with one reachable conversation. -/
def c1PlainBot : BotTarget :=
  { id := 2, userId := 2, token := some "T", convs := [(5, true)],
    raiseOnCreate := false, raiseOnAdd := false, raiseInHandler := false }

/-- A completed per-bot iteration contributes `1` to the counters, plus an
extra `1` exactly when `db.session.add(delivery)` raised after the counter
had already been incremented. -/
theorem processBot_sum (b : BotTarget) (r : DeliveryRecord) (ds df : Nat)
    (h : processBot b = Except.ok (r, ds, df)) :
    ds + df = 1 + (if !b.raiseOnCreate && b.raiseOnAdd then 1 else 0) := by
  rcases b with ⟨id, uid, tok, convs, rc, ra, rh⟩
  cases hsent : sendToBotUsers ⟨id, uid, tok, convs, rc, ra, rh⟩ <;>
    cases rc <;> cases ra <;> cases rh <;>
      simp_all [processBot, Prod.ext_iff] <;> omega

theorem foldl_broadcastStep_error (targets : List BotTarget) (e : Unit) :
    targets.foldl broadcastStep (Except.error e) = Except.error e := by
  induction targets with
  | nil => rfl
  | cons b bs ih => simpa [broadcastStep] using ih

theorem foldl_broadcastStep_sum :
    ∀ (targets : List BotTarget) (s0 f0 : Nat) (recs0 : List DeliveryRecord)
      (s f : Nat) (recs : List DeliveryRecord),
      targets.foldl broadcastStep (Except.ok (s0, f0, recs0)) =
        Except.ok (s, f, recs) →
      s + f = s0 + f0 + targets.length +
        (targets.filter (fun b => !b.raiseOnCreate && b.raiseOnAdd)).length := by
  intro targets
  induction targets with
  | nil =>
    intro s0 f0 recs0 s f recs h
    simp only [List.foldl_nil] at h
    obtain ⟨rfl, rfl, rfl⟩ : s0 = s ∧ f0 = f ∧ recs0 = recs := by
      simpa using h
    simp
  | cons b bs ih =>
    intro s0 f0 recs0 s f recs h
    rw [List.foldl_cons] at h
    rcases hb : processBot b with e | ⟨r, ds, df⟩
    · rw [show broadcastStep (Except.ok (s0, f0, recs0)) b = Except.error e by
        simp [broadcastStep, hb]] at h
      rw [foldl_broadcastStep_error] at h
      exact absurd h (by simp)
    · rw [show broadcastStep (Except.ok (s0, f0, recs0)) b =
          Except.ok (s0 + ds, f0 + df, recs0 ++ [r]) by
        simp [broadcastStep, hb]] at h
      have hsum := processBot_sum b r ds df hb
      have hrec := ih (s0 + ds) (f0 + df) (recs0 ++ [r]) s f recs h
      cases hpb : (!b.raiseOnCreate && b.raiseOnAdd) <;>
        simp only [List.filter_cons, hpb, List.length_cons] at hsum ⊢ <;>
        simp at hsum ⊢ <;> omega

/-- C1 counterexample: a broadcast with one target bot whose gateway send
succeeds but whose `db.session.add(delivery)` raises completes with
`total_bots = 1` yet `successful_sends = 1` and `failed_sends = 1`: the bot
was counted in *both* counters, so `successful_sends + failed_sends` is `2`,
not `total_bots`. -/
theorem C1_counterexample :
    sendBroadcast [c1DoubleBot] =
      Except.ok (1, 1, 1, [{ botId := 1, userId := 1, delivered := false,
                             errorMessage := some "exception" }]) ∧
    (1 : Nat) + 1 ≠ 1 :=
  ⟨rfl, by decide⟩

/-- C1 (amended): after `send_broadcast` completes, `successful_sends +
failed_sends` equals `total_bots` plus the number of target bots for which
persisting the `BroadcastDelivery` row raised after the counter increment
(each such bot is counted in both counters); in particular the spec equality
holds exactly when no delivery-row persist raises. -/
theorem C1_broadcast_accounting (targets : List BotTarget)
    (t s f : Nat) (recs : List DeliveryRecord)
    (h : sendBroadcast targets = Except.ok (t, s, f, recs)) :
    s + f = t +
      (targets.filter (fun b => !b.raiseOnCreate && b.raiseOnAdd)).length := by
  unfold sendBroadcast at h
  rcases hf : targets.foldl broadcastStep (Except.ok (0, 0, [])) with e | ⟨s1, f1, recs1⟩
  · rw [hf] at h
    exact absurd h (by simp)
  · rw [hf] at h
    obtain ⟨rfl, rfl, rfl, rfl⟩ :
        targets.length = t ∧ s1 = s ∧ f1 = f ∧ recs1 = recs := by
      simpa using h
    have := foldl_broadcastStep_sum targets 0 0 [] s1 f1 recs1 hf
    omega

/-- C1 witness: the amended accounting applied to a one-bot run with no
delivery-persist exception. -/
theorem C1_broadcast_accounting_witness :
    (1 : Nat) + 0 = 1 +
      (([c1PlainBot].filter (fun b => !b.raiseOnCreate && b.raiseOnAdd)).length) :=
  C1_broadcast_accounting [c1PlainBot] 1 1 0
    [{ botId := 2, userId := 2, delivered := true, errorMessage := none }] rfl

/-- C10: in the broadcast loop, a target bot with a credential and zero
`Conversation` rows is recorded with `delivered = true` in its delivery row
and contributes `1` to `successful_sends` and `0` to `failed_sends`. -/
theorem C10_empty_conversations_success (b : BotTarget)
    (htok : b.token.isSome) (hconv : b.convs = [])
    (hc : b.raiseOnCreate = false) (ha : b.raiseOnAdd = false) :
    processBot b = Except.ok
      ({ botId := b.id, userId := b.userId, delivered := true,
         errorMessage := none }, 1, 0) := by
  rcases b with ⟨id, uid, tok, convs, rc, ra, rh⟩
  simp only at hconv hc ha
  subst hconv hc ha
  cases tok with
  | none => simp at htok
  | some tk => simp [processBot, sendToBotUsers]

/-- C10 witness: the per-bot step evaluated on a concrete zero-conversation
target. -/
theorem C10_empty_conversations_success_witness :
    processBot { id := 3, userId := 4, token := some "T", convs := [],
                 raiseOnCreate := false, raiseOnAdd := false,
                 raiseInHandler := false } =
      Except.ok ({ botId := 3, userId := 4, delivered := true,
                   errorMessage := none }, 1, 0) :=
  C10_empty_conversations_success _ rfl rfl rfl rfl

/-! ## Python string primitives

Executable models of the Python string operations the services use:
`str.lower()` (restricted to the ASCII and Cyrillic ranges, the only
alphabets occurring in the sources' keyword lists), `str.split()`
(whitespace runs, no empty words), substring containment (`in`),
`str.replace(old, '')` (left-to-right, non-overlapping) and
`re.findall(r'<[^>]+>', s)` (leftmost non-overlapping matches). -/

/-- `str.lower()` on one character: ASCII `A`–`Z`, Cyrillic `А`–`Я` and `Ё`
are mapped to their lowercase forms, everything else is unchanged. -/
def pyLowerChar (c : Char) : Char :=
  if 65 ≤ c.toNat ∧ c.toNat ≤ 90 then Char.ofNat (c.toNat + 32)
  else if 1040 ≤ c.toNat ∧ c.toNat ≤ 1071 then Char.ofNat (c.toNat + 32)
  else if c.toNat = 1025 then Char.ofNat 1105
  else c

/-- `str.lower()`. -/
def pyLower (s : String) : String :=
  String.mk (s.toList.map pyLowerChar)

/-- Accumulator-based scanner behind `pyWords` (`cur` is the word currently
being read, in order). -/
def pyWordsAux (cur : List Char) : List Char → List (List Char)
  | [] => if cur.isEmpty then [] else [cur]
  | c :: rest =>
    if c.isWhitespace then
      if cur.isEmpty then pyWordsAux [] rest else cur :: pyWordsAux [] rest
    else pyWordsAux (cur ++ [c]) rest

/-- `str.split()` with no argument: split on whitespace runs, dropping empty
words. -/
def pyWords (s : List Char) : List (List Char) :=
  pyWordsAux [] s

/-- Substring containment, `needle in hay` on Python strings. -/
def listInfix (pat : List Char) : List Char → Bool
  | [] => pat.isEmpty
  | c :: rest => pat.isPrefixOf (c :: rest) || listInfix pat rest

/-- Fuel-indexed worker for `replaceAll`; the fuel only bounds the recursion
depth and `replaceAll` always supplies enough of it (one unit per character,
while every step consumes at least one character). -/
def replaceAllAux (pat : List Char) : Nat → List Char → List Char
  | _, [] => []
  | 0, s => s
  | fuel + 1, c :: rest =>
    if !pat.isEmpty && pat.isPrefixOf (c :: rest) then
      replaceAllAux pat fuel ((c :: rest).drop pat.length)
    else c :: replaceAllAux pat fuel rest

/-- Python `s.replace(pat, '')`: delete every occurrence of `pat`,
scanning left to right, non-overlapping. -/
def replaceAll (pat s : List Char) : List Char :=
  replaceAllAux pat s.length s

/-- One-pass scanner equivalent to `re.findall(r'<[^>]+>', s)`: `none` means
we are outside any candidate match, `some mid` means a `<` was opened and
`mid` collected the `[^>]+` body so far.  A `>` with a non-empty body emits
the match and scanning resumes after it; a `>` with an empty body (`<>`)
aborts the candidate exactly as the regex does (the rescan from the next
position finds nothing new, since it starts at that `>`). -/
def scanTags (st : Option (List Char)) : List Char → List (List Char)
  | [] => []
  | c :: rest =>
    match st with
    | none => if c = '<' then scanTags (some []) rest else scanTags none rest
    | some mid =>
      if c = '>' then
        if mid.isEmpty then scanTags none rest
        else ('<' :: (mid ++ ['>'])) :: scanTags none rest
      else scanTags (some (mid ++ [c])) rest

/-- `re.findall(r'<[^>]+>', s)`. -/
def findTags (s : List Char) : List (List Char) :=
  scanTags none s

/-! ## HTML sanitizer (`BroadcastService.sanitize_html`)

For every matched tag the source computes
`tag.replace('<','').replace('>','').replace('/','').split()[0].lower()` and
deletes every occurrence of the tag text unless the name is allow-listed.
`split()[0]` raises `IndexError` when nothing but `<`, `>`, `/` and
whitespace is left (for example on the tag `</>`); that raise is modelled by
`none`. -/

/-- The Telegram-safe tag allow-list of `sanitize_html`. -/
def allowedTags : List String :=
  ["b", "strong", "i", "em", "u", "ins", "s", "strike", "del", "code", "pre", "a"]

/-- `tag.replace('<','').replace('>','').replace('/','')`. -/
def stripAngles (tag : List Char) : List Char :=
  tag.filter (fun c => !(c == '<' || c == '>' || c == '/'))

/-- `....split()[0].lower()`, `none` when `split()` is empty (IndexError). -/
def tagNameOf (tag : List Char) : Option String :=
  match pyWords (stripAngles tag) with
  | [] => none
  | w :: _ => some (String.mk (w.map pyLowerChar))

/-- One iteration of the `for tag in re.findall(...)` loop. -/
def sanitizeStep (clean : List Char) (tag : List Char) : Option (List Char) :=
  match tagNameOf tag with
  | none => none
  | some nm => some (if allowedTags.contains nm then clean else replaceAll tag clean)

/-- `BroadcastService.sanitize_html`; `none` models an escaping
`IndexError`.  An empty (falsy) input is returned unchanged. -/
def sanitizeHtml (s : String) : Option String :=
  if s.toList.isEmpty then some s
  else ((findTags s.toList).foldlM sanitizeStep s.toList).map String.mk

theorem foldlM_sanitizeStep_isSome (tags : List (List Char)) :
    ∀ clean, ((tags.foldlM sanitizeStep clean).isSome = true ↔
      ∀ tag ∈ tags, (tagNameOf tag).isSome = true) := by
  induction tags with
  | nil => intro clean; simp
  | cons t ts ih =>
    intro clean
    rw [List.foldlM_cons]
    cases hname : tagNameOf t with
    | none => simp [sanitizeStep, hname]
    | some nm => simp [sanitizeStep, hname, ih]

/-- C9 counterexample: `sanitize_html` is not total — on `"</>"` the
`split()[0]` lookup raises `IndexError` — and it does not return a string
free of disallowed tags: `"<q><scr<q>ipt>"` sanitizes to `"<script>"`, whose
single parsed tag has the disallowed name `script`. -/
theorem C9_counterexample :
    sanitizeHtml "</>" = none ∧
    sanitizeHtml "<q><scr<q>ipt>" = some "<script>" ∧
    (findTags "<script>".toList).filterMap tagNameOf = ["script"] ∧
    allowedTags.contains "script" = false :=
  ⟨rfl, rfl, rfl, rfl⟩

/-- C9 (amended): `sanitize_html` deletes, in one pass over the tags matched
in the original input, every occurrence of each tag whose extracted name is
outside the allow-list, but it raises `IndexError` exactly when some matched
tag has no name token (e.g. `"</>"`), and the single pass can leave behind
disallowed tags assembled by the deletions themselves (e.g.
`"<q><scr<q>ipt>"` yields `"<script>"`).  Totality characterisation: the
sanitizer returns a result iff every matched tag of the input has a
non-empty name token. -/
theorem C9_sanitize_totality (s : String) :
    (sanitizeHtml s).isSome = true ↔
      ∀ tag ∈ findTags s.toList, (tagNameOf tag).isSome = true := by
  unfold sanitizeHtml
  cases hl : s.toList.isEmpty
  · rw [if_neg (by simp [hl])]
    have hmap : ∀ o : Option (List Char), (o.map String.mk).isSome = o.isSome :=
      fun o => by cases o <;> rfl
    rw [hmap]
    exact foldlM_sanitizeStep_isSome (findTags s.toList) s.toList
  · have hnil : s.toList = [] := by simpa using hl
    rw [hnil]
    simp [findTags, scanTags]

/-! ## AI service (`services/ai_service.py`)

`AIService._detect_language_instruction` counts fixed lexical markers per
candidate language (Python `word in message.lower()`) plus Cyrillic
characters of the raw message, and picks a language instruction;
`AIService._get_language_instruction` maps an explicit preference to a
forced-language instruction; `AIService.get_response` wires them together
(stored preference wins, the content heuristic runs only for the literal
value `'auto'`) and degrades to fixed strings when the Gemini client is
missing or the call raises. -/

/-- The Uzbek lexical markers of `_detect_language_instruction`. -/
def uzbekWords : List String :=
  ["salom", "assalomu", "alaykum", "rahmat", "yaxshi", "qanday", "nima",
   "kim", "qachon", "qayer", "nega", "qancha", "bormi", "yoq", "ha", "men",
   "sen", "biz", "siz", "ular", "bu", "shu", "o\x27sha", "kimsiz", "nimalar"]

/-- The Russian lexical markers of `_detect_language_instruction`. -/
def russianWords : List String :=
  ["привет", "здравствуй", "спасибо", "как", "что", "где", "когда",
   "почему", "сколько", "да", "нет", "я", "ты", "мы", "вы", "они", "это"]

/-- Number of Uzbek markers occurring in the lowercased message. -/
def uzbekCount (msg : String) : Nat :=
  (uzbekWords.filter (fun w => listInfix w.toList (pyLower msg).toList)).length

/-- Number of Russian markers occurring in the lowercased message. -/
def russianCount (msg : String) : Nat :=
  (russianWords.filter (fun w => listInfix w.toList (pyLower msg).toList)).length

/-- Number of characters of the raw message in the Cyrillic block
`'Ѐ'..'ӿ'`. -/
def cyrillicCount (msg : String) : Nat :=
  (msg.toList.filter (fun c => decide (1024 ≤ c.toNat) && decide (c.toNat ≤ 1279))).length

def uzbekInstruction : String :=
  "Always respond in UZBEK language (o\x27zbek tilida javob bering). Use Latin script for Uzbek."

def russianInstruction : String :=
  "Always respond in RUSSIAN language (отвечайте на русском языке)."

def mirrorInstruction : String :=
  "Respond in the same language as the user\x27s message. If the message is in Uzbek, respond in Uzbek. If in Russian, respond in Russian. If in English, respond in English."

/-- `AIService._detect_language_instruction`. -/
def detectLanguageInstruction (userMessage : String) : String :=
  if 0 < uzbekCount userMessage ∨ 0 < cyrillicCount userMessage then
    if russianCount userMessage < uzbekCount userMessage then uzbekInstruction
    else russianInstruction
  else if 0 < russianCount userMessage then russianInstruction
  else mirrorInstruction

def forcedUzbekInstruction : String :=
  "MAJBURIY QOIDA - ENG MUHIM: \n- Barcha javoblaringizni FAQAT O\x27ZBEK TILIDA yozing\n- Hech qanday ingliz, rus yoki boshqa tilda so\x27z ishlatmang\n- Lotin yozuvidan foydalaning\n- Agar tushunmasangiz ham, o\x27zbek tilida javob bering\n- Bu eng muhim qoida - hech qachon buzilmasligi kerak"

def forcedRussianInstruction : String :=
  "ОБЯЗАТЕЛЬНОЕ ПРАВИЛО - САМОЕ ВАЖНОЕ:\n- Отвечайте ТОЛЬКО НА РУССКОМ ЯЗЫКЕ\n- Не используйте английские, узбекские или другие слова\n- Даже если не понимаете, отвечайте на русском\n- Это самое важное правило - никогда не нарушайте его"

def forcedEnglishInstruction : String :=
  "MANDATORY RULE - MOST IMPORTANT:\n- Respond ONLY in ENGLISH language\n- Do not use Russian, Uzbek or other language words\n- Even if you don\x27t understand, respond in English\n- This is the most important rule - never break it"

def sameLanguageInstruction : String :=
  "Respond in the same language as the user\x27s message."

/-- `AIService._get_language_instruction`. -/
def getLanguageInstruction (language : String) : String :=
  if language = "uz" then forcedUzbekInstruction
  else if language = "ru" then forcedRussianInstruction
  else if language = "en" then forcedEnglishInstruction
  else sameLanguageInstruction

/-- Language-directive selection of `AIService.get_response` (lines 47–51):
an explicit stored preference wins; the content heuristic runs only for the
literal value `"auto"`. -/
def responseLanguageInstruction (userLanguage userMessage : String) : String :=
  if userLanguage ≠ "auto" then getLanguageInstruction userLanguage
  else detectLanguageInstruction userMessage

/-- C4 counterexample: `"salom да"` has exactly one Uzbek and one Russian
lexical marker — a tie — yet `_detect_language_instruction` answers the
forced-Russian instruction, not the "mirror the input language"
directive. -/
theorem C4_counterexample :
    uzbekCount "salom да" = 1 ∧ russianCount "salom да" = 1 ∧
    detectLanguageInstruction "salom да" = russianInstruction ∧
    russianInstruction ≠ mirrorInstruction :=
  ⟨rfl, rfl, rfl, by decide⟩

/-- C4 (amended): the candidate with the *strictly* highest marker count
wins, but ties with at least one marker — and marker-free inputs containing
any Cyrillic character — resolve to the forced-Russian instruction; only
inputs with no markers and no Cyrillic fall back to "mirror input
language". -/
theorem C4_detect_characterisation (msg : String) :
    detectLanguageInstruction msg =
      if russianCount msg < uzbekCount msg then uzbekInstruction
      else if 0 < uzbekCount msg ∨ 0 < russianCount msg ∨ 0 < cyrillicCount msg then
        russianInstruction
      else mirrorInstruction := by
  unfold detectLanguageInstruction
  split_ifs <;> first | rfl | omega

/-! ### `AIService.get_response` failure behaviour

The constructor reads `GEMINI_API_KEY` from the environment; a missing key
sets `api_available = False`.  The Gemini call itself is abstracted by a
`BackendResult` oracle: it either raises or yields `response.text`
(possibly `None` or empty).  Every exception inside the `try` block is
caught and mapped to the fixed technical-difficulties string, so the
operation is total (it never raises to the caller); note the source imposes
no timeout of its own on the backend call. -/

/-- Outcome of the `generate_content` call. -/
inductive BackendResult where
  | raises : BackendResult
  | responds (text : Option String) : BackendResult
  deriving Repr, DecidableEq

/-- A `KnowledgeBase` row as read by the AI service. -/
structure KBEntry where
  title : String
  content : String
  imageUrl : Option String
  imageCaption : Option String
  deriving Repr, DecidableEq

def unavailableMessage : String :=
  "AI service is currently unavailable. Please configure your GEMINI_API_KEY to enable AI responses."

def techTroubleMessage : String :=
  "I\x27m experiencing technical difficulties. Please try again later."

def emptyReplyMessage : String :=
  "I apologize, but I couldn\x27t generate a response. Please try again."

/-- The fixed "show me / picture" keywords of `_find_relevant_image`. -/
def imageKeywords : List String :=
  ["rasm", "surat", "rasmini", "picture", "image", "photo", "show me",
   "ko\x27rsat", "qanday ko\x27rinadi", "ko\x27rsating", "фото", "картинка",
   "покажи", "как выглядит"]

/-- Python `str.strip()`. -/
def pyStrip (s : String) : String :=
  String.mk (((s.toList.dropWhile Char.isWhitespace).reverse.dropWhile
      Char.isWhitespace).reverse)

/-- `AIService._find_relevant_image`: media-hint detection against the
knowledge entries (first entry with an image and a `> 3`-character token
overlap wins; `image_caption or title` picks the caption). -/
def findRelevantImage (userMessage : String) (entries : List KBEntry) :
    Option (String × String) :=
  let lowerMsg := (pyLower userMessage).toList
  if imageKeywords.any (fun k => listInfix k.toList lowerMsg) then
    entries.findSome? (fun e =>
      match e.imageUrl with
      | none => none
      | some url =>
        let kws := pyWords (pyLower e.title).toList ++ pyWords (pyLower e.content).toList
        if kws.any (fun w => decide (3 < w.length) && listInfix w lowerMsg) then
          some (url, match e.imageCaption with
                     | some cap => if cap.toList.isEmpty then e.title else cap
                     | none => e.title)
        else none)
  else none

/-- Result of `AIService.get_response`: plain text, or text with an attached
media reference. -/
inductive AIReply where
  | plain (text : String) : AIReply
  | withImage (text imageUrl imageCaption : String) : AIReply
  deriving Repr, DecidableEq

/-- `AIService.get_response` with the external calls abstracted: `apiKey` is
the environment value read at startup, `backend` the behaviour of the
Gemini call.  Totality of this function is the "never raises to the caller"
half of the error contract. -/
def getResponse (apiKey : Option String) (backend : BackendResult)
    (entries : List KBEntry) (userMessage : String) : AIReply :=
  if apiKey.isSome = false then AIReply.plain unavailableMessage
  else
    match backend with
    | BackendResult.raises => AIReply.plain techTroubleMessage
    | BackendResult.responds none => AIReply.plain emptyReplyMessage
    | BackendResult.responds (some t) =>
      if t.toList.isEmpty then AIReply.plain emptyReplyMessage
      else
        match findRelevantImage userMessage entries with
        | some (url, cap) => AIReply.withImage (pyStrip t) url cap
        | none => AIReply.plain (pyStrip t)

/-- C8 counterexample: the fallback is not one fixed string — a missing
credential yields the configuration message while an unreachable backend
yields the technical-difficulties message, and the two differ. -/
theorem C8_counterexample :
    getResponse none (BackendResult.responds (some "hi")) [] "hello" =
      AIReply.plain unavailableMessage ∧
    getResponse (some "KEY") BackendResult.raises [] "hello" =
      AIReply.plain techTroubleMessage ∧
    unavailableMessage ≠ techTroubleMessage :=
  ⟨rfl, rfl, by decide⟩

/-- C8 (amended): `get_response` never raises (it is a total function of the
oracles), and it degrades to a *per-failure-mode* fixed string: the
configuration message whenever the credential was missing at startup, and
the technical-difficulties message whenever the backend call raises. -/
theorem C8_fallbacks (apiKey : Option String) (backend : BackendResult)
    (entries : List KBEntry) (msg : String) :
    (apiKey = none →
      getResponse apiKey backend entries msg = AIReply.plain unavailableMessage) ∧
    (apiKey.isSome = true → backend = BackendResult.raises →
      getResponse apiKey backend entries msg = AIReply.plain techTroubleMessage) := by
  constructor
  · rintro rfl
    rfl
  · rintro hk rfl
    cases apiKey with
    | none => simp at hk
    | some k => rfl

/-- C8 witness: both degraded modes exercised at concrete inputs. -/
theorem C8_fallbacks_witness :
    getResponse none (BackendResult.responds (some "x")) [] "m" =
      AIReply.plain unavailableMessage ∧
    getResponse (some "K") BackendResult.raises [] "m" =
      AIReply.plain techTroubleMessage :=
  ⟨(C8_fallbacks none (BackendResult.responds (some "x")) [] "m").1 rfl,
   (C8_fallbacks (some "K") BackendResult.raises [] "m").2 rfl rfl⟩

/-! ## Per-participant language resolution (`TelegramService`)

`_get_user_language` consults the in-memory cache, then the `TelegramUser`
table, and otherwise returns the fixed default `'uz'` (also on a database
error).  `_handle_message` passes that value into
`AIService.get_response`, whose content heuristic therefore runs only when
the resolved value is the literal string `'auto'`. -/

/-- `TelegramService._get_user_language` over the cache dictionary and the
`telegram_users` table (both keyed by the Telegram user id). -/
def getUserLanguage (cache dbUsers : List (Nat × String)) (uid : Nat) : String :=
  match cache.find? (fun p => p.1 == uid) with
  | some p => p.2
  | none =>
    match dbUsers.find? (fun p => p.1 == uid) with
    | some p => p.2
    | none => "uz"

/-- The reply-language directive the dispatch pipeline hands to the AI
request for an inbound message (`_handle_message` line 264 feeding
`get_response` lines 47–51). -/
def pipelineLanguageInstruction (cache dbUsers : List (Nat × String))
    (uid : Nat) (userMessage : String) : String :=
  responseLanguageInstruction (getUserLanguage cache dbUsers uid) userMessage

/-- C5 counterexample: a participant with no stored preference sending the
Russian message `"привет"` gets the forced-Uzbek directive (the fixed
default `'uz'`), not the content-heuristic directive, which would be
forced-Russian here. -/
theorem C5_counterexample :
    pipelineLanguageInstruction [] [] 7 "привет" = getLanguageInstruction "uz" ∧
    detectLanguageInstruction "привет" = russianInstruction ∧
    getLanguageInstruction "uz" ≠ russianInstruction :=
  ⟨rfl, rfl, by decide⟩

/-- C5 (amended): for every participant with no cached and no stored
language preference, the dispatch pipeline resolves the reply language to
the fixed default `'uz'` and hands the AI request the forced-Uzbek
directive; the content-based heuristic of §4.3 is bypassed (it would run
only for the literal resolved value `'auto'`, which the lookup never
returns). -/
theorem C5_default_language (cache dbUsers : List (Nat × String))
    (uid : Nat) (msg : String)
    (hc : cache.find? (fun p => p.1 == uid) = none)
    (hd : dbUsers.find? (fun p => p.1 == uid) = none) :
    pipelineLanguageInstruction cache dbUsers uid msg = forcedUzbekInstruction := by
  unfold pipelineLanguageInstruction getUserLanguage responseLanguageInstruction
  rw [hc, hd]
  rfl

/-- C5 witness: concrete empty cache and an unrelated stored row. -/
theorem C5_default_language_witness :
    pipelineLanguageInstruction [] [(3, "ru")] 7 "hello" = forcedUzbekInstruction :=
  C5_default_language [] [(3, "ru")] 7 "hello" rfl rfl

/-! ## Bot runtime registry (`TelegramService.start_bot` / `stop_bot`)

The process-wide registry is the pair of dictionaries `active_bots`
(bot id → `Application`) and `bot_threads` (bot id → polling thread),
modelled as association lists with fresh handles from a counter.  The live
execution contexts are tracked separately in `pollers`: each `run_bot`
thread launched by `start_bot` drives `loop.run_forever()` for the
application it was created with, and that loop outlives the registry
entries unless a shutdown actually reaches it.  `stop_bot` awaits
`application.updater.stop()` from the *caller's* event loop, not the
polling thread's own loop, so the attempt can fail; the failure is caught
and ignored ("Force cleanup even if stop fails"), both registry entries
are deleted regardless (dictionary `del`), and nothing ever calls
`loop.stop()` on the polling thread or joins it.  The Boolean oracle
`stopSucceeds` records whether the cross-loop shutdown attempt reached the
polling loop. -/

/-- The fields of a `Bot` row that `start_bot` consults. -/
structure TgBot where
  id : Nat
  token : Option String
  deriving Repr, DecidableEq

/-- The mutable state of a `TelegramService` instance plus the live polling
loops of the process.  A pair `(botId, handle)` in `pollers` is a `run_bot`
thread still driving the application identified by `handle`, whether or not
it is still registered. -/
structure Runtime where
  activeBots : List (Nat × Nat)
  botThreads : List (Nat × Nat)
  pollers : List (Nat × Nat)
  nextHandle : Nat
  deriving Repr, DecidableEq

/-- `TelegramService.stop_bot`: when an application is registered for the
id, the cross-loop shutdown of exactly that application is attempted — it
terminates the corresponding polling loop only if the attempt succeeds,
and a failure is swallowed; in every case both registry entries are then
deleted, so the registry no longer reflects a poller that survived a
failed shutdown. -/
def stopBot (rt : Runtime) (botId : Nat) (stopSucceeds : Bool) : Runtime :=
  let remainingPollers :=
    match rt.activeBots.find? (fun p => p.1 == botId) with
    | none => rt.pollers
    | some app =>
      if stopSucceeds then rt.pollers.filter (fun p => !(p.2 == app.2))
      else rt.pollers
  { activeBots := rt.activeBots.filter (fun p => !(p.1 == botId)),
    botThreads := rt.botThreads.filter (fun p => !(p.1 == botId)),
    pollers := remainingPollers,
    nextHandle := rt.nextHandle }

/-- `TelegramService.start_bot`: fails without a token; otherwise runs
`stop_bot` first (with its embedded shutdown attempt), then registers a
fresh application handle and polling thread and launches the new polling
loop. -/
def startBot (rt : Runtime) (bot : TgBot) (stopSucceeds : Bool) : Runtime × Bool :=
  match bot.token with
  | none => (rt, false)
  | some _ =>
    let rt1 := stopBot rt bot.id stopSucceeds
    ({ activeBots := rt1.activeBots ++ [(bot.id, rt1.nextHandle)],
       botThreads := rt1.botThreads ++ [(bot.id, rt1.nextHandle + 1)],
       pollers := rt1.pollers ++ [(bot.id, rt1.nextHandle)],
       nextHandle := rt1.nextHandle + 2 }, true)

/-- `TelegramService.get_active_bots` (`listActive()`). -/
def getActiveBots (rt : Runtime) : List Nat :=
  rt.activeBots.map Prod.fst

/-- The application handle registered for a bot id. -/
def appHandleOf (rt : Runtime) (botId : Nat) : Option Nat :=
  (rt.activeBots.find? (fun p => p.1 == botId)).map Prod.snd

/-- The polling loops currently alive for a bot id, registered or not. -/
def livePollersFor (rt : Runtime) (botId : Nat) : List (Nat × Nat) :=
  rt.pollers.filter (fun p => p.1 == botId)

theorem count_fst_erase (l : List (Nat × Nat)) (i : Nat) :
    ((l.filter (fun p => !(p.1 == i))).map Prod.fst).count i = 0 := by
  rw [List.count_eq_zero]
  intro hmem
  obtain ⟨p, hp, hfst⟩ := List.mem_map.mp hmem
  have hkeep := List.of_mem_filter hp
  simp [hfst] at hkeep

theorem find?_erase_none (l : List (Nat × Nat)) (i : Nat) :
    (l.filter (fun p => !(p.1 == i))).find? (fun p => p.1 == i) = none := by
  rw [List.find?_eq_none]
  intro p hp
  have hkeep := List.of_mem_filter hp
  simpa using hkeep

theorem find?_append_of_none {α : Type} (l1 l2 : List α) (p : α → Bool)
    (h : l1.find? p = none) : (l1 ++ l2).find? p = l2.find? p := by
  induction l1 with
  | nil => rfl
  | cons a l1 ih =>
    rw [List.find?_cons] at h
    rcases hpa : p a with _ | _
    · rw [hpa] at h
      rw [List.cons_append, List.find?_cons, hpa]
      exact ih h
    · rw [hpa] at h
      exact absurd h (by simp)

theorem erase_append_self (l : List (Nat × Nat)) (i v : Nat) :
    ((l.filter (fun p => !(p.1 == i)) ++ [(i, v)]).filter (fun p => !(p.1 == i))) =
      l.filter (fun p => !(p.1 == i)) := by
  rw [List.filter_append, List.filter_filter]
  simp

theorem filter_fst_free (i : Nat) (l : List (Nat × Nat))
    (h : ∀ p ∈ l, p.1 ≠ i) : l.filter (fun p => p.1 == i) = [] := by
  induction l with
  | nil => rfl
  | cons a l ih =>
    rw [List.filter_cons, if_neg (by simp [h a (List.mem_cons_self a l)])]
    exact ih (fun p hp => h p (List.mem_cons_of_mem a hp))

theorem stopBot_pollers_cases (rt : Runtime) (botId : Nat) (ok : Bool) :
    (stopBot rt botId ok).pollers = rt.pollers ∨
    ∃ a : Nat × Nat, (stopBot rt botId ok).pollers =
      rt.pollers.filter (fun p => !(p.2 == a.2)) := by
  unfold stopBot
  rcases hf : rt.activeBots.find? (fun p => p.1 == botId) with _ | app <;>
    rw [hf] <;> cases ok
  · exact Or.inl rfl
  · exact Or.inl rfl
  · exact Or.inl rfl
  · exact Or.inr ⟨app, rfl⟩

theorem stopBot_pollers_free (rt : Runtime) (botId : Nat) (ok : Bool) (i : Nat)
    (h : ∀ p ∈ rt.pollers, p.1 ≠ i) :
    ∀ p ∈ (stopBot rt botId ok).pollers, p.1 ≠ i := by
  rcases stopBot_pollers_cases rt botId ok with hc | ⟨a, hc⟩ <;> rw [hc] <;> intro p hp
  · exact h p hp
  · exact h p (List.mem_of_mem_filter hp)

theorem stopBot_pollers_of_find (rt : Runtime) (botId : Nat) (ok : Bool)
    (a : Nat × Nat) (hf : rt.activeBots.find? (fun p => p.1 == botId) = some a) :
    (stopBot rt botId ok).pollers =
      if ok then rt.pollers.filter (fun p => !(p.2 == a.2)) else rt.pollers := by
  unfold stopBot
  rw [hf]

/-- After `start; start`, the second stop attempt targets the application
registered by the first start; whether the superseded polling loop dies
depends only on that attempt's outcome: one live poller remains when it
succeeds, two when it fails. -/
theorem second_start_pollers (rt : Runtime) (id : Nat) (t : String) (ok1 ok2 : Bool)
    (hclean : ∀ p ∈ rt.pollers, p.1 ≠ id) :
    (livePollersFor
      (startBot (startBot rt ⟨id, some t⟩ ok1).1 ⟨id, some t⟩ ok2).1 id).length =
      if ok2 then 1 else 2 := by
  have hP1free : ∀ p ∈ (stopBot rt id ok1).pollers, p.1 ≠ id :=
    stopBot_pollers_free rt id ok1 id hclean
  have hfind : ((startBot rt ⟨id, some t⟩ ok1).1.activeBots.find?
      (fun p => p.1 == id)) = some (id, rt.nextHandle) := by
    show ((rt.activeBots.filter (fun p => !(p.1 == id)) ++
        [(id, rt.nextHandle)]).find? (fun p => p.1 == id)) = some (id, rt.nextHandle)
    rw [find?_append_of_none _ _ _ (find?_erase_none rt.activeBots id)]
    simp
  have hstop2 := stopBot_pollers_of_find ((startBot rt ⟨id, some t⟩ ok1).1) id ok2
    (id, rt.nextHandle) hfind
  show (((stopBot (startBot rt ⟨id, some t⟩ ok1).1 id ok2).pollers ++
      [(id, (startBot rt ⟨id, some t⟩ ok1).1.nextHandle)]).filter
      (fun p => p.1 == id)).length = if ok2 then 1 else 2
  rw [hstop2]
  have hr1p : (startBot rt ⟨id, some t⟩ ok1).1.pollers =
      (stopBot rt id ok1).pollers ++ [(id, rt.nextHandle)] := rfl
  have hr1n : (startBot rt ⟨id, some t⟩ ok1).1.nextHandle = rt.nextHandle + 2 := rfl
  rw [hr1p, hr1n]
  have hfree1 : ((stopBot rt id ok1).pollers.filter (fun p => p.1 == id)) = [] :=
    filter_fst_free id _ hP1free
  have hfree2 : (((stopBot rt id ok1).pollers.filter
      (fun p => !(p.2 == rt.nextHandle))).filter (fun p => p.1 == id)) = [] :=
    filter_fst_free id _ (fun p hp => hP1free p (List.mem_of_mem_filter hp))
  cases ok2
  · simp only [Bool.false_eq_true, if_false]
    rw [List.filter_append, List.filter_append, List.length_append,
        List.length_append, hfree1]
    simp
  · simp only [if_true]
    rw [List.filter_append, List.filter_append, List.filter_append,
        List.length_append, List.length_append, hfree2]
    simp

/-- State before the C6 counterexample run: fresh service, nothing live. -/
def c6Rt0 : Runtime :=
  { activeBots := [], botThreads := [], pollers := [], nextHandle := 0 }

/-- The bot started twice in the C6 counterexample. -/
def c6Bot : TgBot :=
  { id := 9, token := some "T" }

/-- Two starts in succession where the second call's embedded cross-loop
shutdown attempt fails (its exception is swallowed by `stop_bot`). -/
def c6FailedRestart : Runtime :=
  (startBot (startBot c6Rt0 c6Bot true).1 c6Bot false).1

/-- C6 counterexample: after `start; start` with the second call's shutdown
attempt failing, `listActive()` contains the id exactly once, yet *two*
polling loops for the bot are alive — the superseded poller survives
unregistered, exactly the "two concurrent pollers" the claim rules out. -/
theorem C6_counterexample :
    getActiveBots c6FailedRestart = [9] ∧
    (livePollersFor c6FailedRestart 9).length = 2 ∧
    (2 : Nat) ≠ 1 :=
  ⟨rfl, rfl, by decide⟩

/-- C6 (amended): starting a bot twice in succession succeeds both times
and leaves exactly one registry entry — one application, one polling-thread
entry, so `listActive()` contains the id exactly once, and the surviving
registered handle is the second call's — but exactly one live polling loop
only when the second call's embedded cross-loop shutdown attempt succeeds:
`stop_bot` deletes the registry entries even when that attempt fails (the
exception is swallowed and the polling thread's `run_forever` is never
stopped or joined), in which case the superseded poller keeps running and
two concurrent pollers exist. -/
theorem C6_double_start (rt : Runtime) (bot : TgBot) (ok1 ok2 : Bool)
    (htok : bot.token.isSome = true)
    (hclean : ∀ p ∈ rt.pollers, p.1 ≠ bot.id) :
    (startBot rt bot ok1).2 = true ∧
    (startBot (startBot rt bot ok1).1 bot ok2).2 = true ∧
    (getActiveBots (startBot (startBot rt bot ok1).1 bot ok2).1).count bot.id = 1 ∧
    ((startBot (startBot rt bot ok1).1 bot ok2).1.botThreads.map Prod.fst).count bot.id = 1 ∧
    appHandleOf (startBot (startBot rt bot ok1).1 bot ok2).1 bot.id ≠
      appHandleOf (startBot rt bot ok1).1 bot.id ∧
    (livePollersFor (startBot (startBot rt bot ok1).1 bot ok2).1 bot.id).length =
      if ok2 then 1 else 2 := by
  rcases bot with ⟨id, tok⟩
  cases tok with
  | none => simp at htok
  | some t =>
    refine ⟨rfl, rfl, ?_, ?_, ?_, ?_⟩
    · show ((((rt.activeBots.filter (fun p => !(p.1 == id)) ++
          [(id, rt.nextHandle)]).filter (fun p => !(p.1 == id)) ++
          [(id, rt.nextHandle + 2)]).map Prod.fst).count id) = 1
      rw [erase_append_self]
      rw [List.map_append, List.count_append, count_fst_erase]
      simp
    · show ((((rt.botThreads.filter (fun p => !(p.1 == id)) ++
          [(id, rt.nextHandle + 1)]).filter (fun p => !(p.1 == id)) ++
          [(id, rt.nextHandle + 2 + 1)]).map Prod.fst).count id) = 1
      rw [erase_append_self]
      rw [List.map_append, List.count_append, count_fst_erase]
      simp
    · show ((((rt.activeBots.filter (fun p => !(p.1 == id)) ++
          [(id, rt.nextHandle)]).filter (fun p => !(p.1 == id)) ++
          [(id, rt.nextHandle + 2)]).find? (fun p => p.1 == id)).map Prod.snd) ≠
        (((rt.activeBots.filter (fun p => !(p.1 == id)) ++
          [(id, rt.nextHandle)]).find? (fun p => p.1 == id)).map Prod.snd)
      rw [erase_append_self]
      rw [find?_append_of_none _ _ _ (find?_erase_none rt.activeBots id),
          find?_append_of_none _ _ _ (find?_erase_none rt.activeBots id)]
      simp
    · exact second_start_pollers rt id t ok1 ok2 hclean

/-- C6 witness: two starts of a concrete bot on an empty registry with the
second shutdown attempt succeeding — one registry entry, one live poller. -/
theorem C6_double_start_witness :
    (startBot c6Rt0 c6Bot true).2 = true ∧
    (startBot (startBot c6Rt0 c6Bot true).1 c6Bot true).2 = true ∧
    (getActiveBots (startBot (startBot c6Rt0 c6Bot true).1 c6Bot true).1).count 9 = 1 ∧
    ((startBot (startBot c6Rt0 c6Bot true).1 c6Bot true).1.botThreads.map
        Prod.fst).count 9 = 1 ∧
    appHandleOf (startBot (startBot c6Rt0 c6Bot true).1 c6Bot true).1 9 ≠
      appHandleOf (startBot c6Rt0 c6Bot true).1 9 ∧
    (livePollersFor (startBot (startBot c6Rt0 c6Bot true).1 c6Bot true).1 9).length = 1 :=
  C6_double_start c6Rt0 c6Bot true true rfl (by decide)

/-! ## Conversation tracking (`TelegramService._track_conversation`)

For an inbound message the dispatch pipeline looks up the `Conversation`
row keyed by `(bot_id, telegram_user_id)`: the first matching row gets its
`last_message_at` stamped, otherwise a fresh row is inserted (an upsert).
Message events carry the `datetime.utcnow()` value at which they are
processed; a run is a left fold over the events. -/

/-- A `conversations` row. -/
structure ConvRow where
  botId : Nat
  userId : Int
  chatId : String
  lastMessageAt : Nat
  createdAt : Nat
  deriving Repr, DecidableEq

/-- The `filter_by(bot_id=..., telegram_user_id=...)` predicate. -/
def convMatches (botId : Nat) (userId : Int) (r : ConvRow) : Bool :=
  r.botId == botId && r.userId == userId

/-- Stamp `last_message_at` on the first matching row (`.first()` followed
by an attribute update). -/
def updateFirstConv (now : Nat) (botId : Nat) (userId : Int) :
    List ConvRow → List ConvRow
  | [] => []
  | r :: rest =>
    if convMatches botId userId r then { r with lastMessageAt := now } :: rest
    else r :: updateFirstConv now botId userId rest

/-- The fresh `Conversation` row inserted on first contact
(`created_at` and `last_message_at` default to the current time,
`chat_id` is stored as `str(chat_id)`). -/
def newConvRow (now : Nat) (botId : Nat) (userId : Int) (chatId : Int) : ConvRow :=
  { botId := botId, userId := userId, chatId := toString chatId,
    lastMessageAt := now, createdAt := now }

/-- `TelegramService._track_conversation`. -/
def trackConversation (now : Nat) (botId : Nat) (userId : Int) (chatId : Int)
    (rows : List ConvRow) : List ConvRow :=
  if rows.any (convMatches botId userId) then updateFirstConv now botId userId rows
  else rows ++ [newConvRow now botId userId chatId]

/-- One inbound message event, stamped with the processing time. -/
structure MsgEvent where
  time : Nat
  botId : Nat
  userId : Int
  chatId : Int
  deriving Repr, DecidableEq

/-- Dispatch a sequence of inbound messages through `_track_conversation`. -/
def runMessages (events : List MsgEvent) (rows : List ConvRow) : List ConvRow :=
  events.foldl (fun s e => trackConversation e.time e.botId e.userId e.chatId s) rows

/-- Number of `Conversation` rows for a `(bot, participant)` pair. -/
def convCount (rows : List ConvRow) (botId : Nat) (userId : Int) : Nat :=
  (rows.filter (convMatches botId userId)).length

/-- The `last_message_at` of the (first) row of a pair. -/
def lastActivityOf (rows : List ConvRow) (botId : Nat) (userId : Int) : Option Nat :=
  (rows.find? (convMatches botId userId)).map ConvRow.lastMessageAt

theorem any_convMatches_iff (rows : List ConvRow) (b : Nat) (u : Int) :
    rows.any (convMatches b u) = true ↔ 0 < convCount rows b u := by
  unfold convCount
  rw [List.any_eq_true]
  constructor
  · rintro ⟨x, hx, hpx⟩
    have hmem : x ∈ rows.filter (convMatches b u) := List.mem_filter.mpr ⟨hx, hpx⟩
    exact List.length_pos.mpr (fun hnil => by simp [hnil] at hmem)
  · intro h
    obtain ⟨x, hx⟩ := List.exists_mem_of_length_pos h
    have := List.mem_filter.mp hx
    exact ⟨x, this.1, this.2⟩

theorem convCount_updateFirst (now : Nat) (b : Nat) (u : Int) (b' : Nat) (u' : Int) :
    ∀ rows, convCount (updateFirstConv now b u rows) b' u' = convCount rows b' u' := by
  intro rows
  induction rows with
  | nil => rfl
  | cons r rest ih =>
    unfold updateFirstConv convCount
    by_cases h : convMatches b u r = true
    · rw [if_pos h]
      have hsame : convMatches b' u' { r with lastMessageAt := now } =
          convMatches b' u' r := rfl
      rw [List.filter_cons, List.filter_cons, hsame]
      cases convMatches b' u' r <;> simp
    · rw [if_neg h]
      rw [List.filter_cons, List.filter_cons]
      unfold convCount at ih
      cases convMatches b' u' r <;> simp [ih]

theorem convCount_track (now : Nat) (b : Nat) (u : Int) (c : Int)
    (rows : List ConvRow) (b' : Nat) (u' : Int) :
    convCount (trackConversation now b u c rows) b' u' =
      if b = b' ∧ u = u' then max (convCount rows b' u') 1
      else convCount rows b' u' := by
  unfold trackConversation
  by_cases hany : rows.any (convMatches b u) = true
  · rw [if_pos hany, convCount_updateFirst]
    by_cases heq : b = b' ∧ u = u'
    · obtain ⟨rfl, rfl⟩ := heq
      rw [if_pos ⟨rfl, rfl⟩]
      have := (any_convMatches_iff rows b u).mp hany
      omega
    · rw [if_neg heq]
  · rw [if_neg hany]
    unfold convCount
    rw [List.filter_append]
    by_cases heq : b = b' ∧ u = u'
    · obtain ⟨rfl, rfl⟩ := heq
      rw [if_pos ⟨rfl, rfl⟩]
      have hz : convCount rows b u = 0 := by
        unfold convCount
        by_contra hc
        exact hany ((any_convMatches_iff rows b u).mpr (Nat.pos_of_ne_zero fun h => hc h))
      unfold convCount at hz
      simp [convMatches, newConvRow, hz]
    · rw [if_neg heq]
      have hnm : convMatches b' u' (newConvRow now b u c) = false := by
        by_contra hc
        simp only [Bool.not_eq_false] at hc
        simp only [convMatches, newConvRow, Bool.and_eq_true, beq_iff_eq] at hc
        exact heq ⟨hc.1, hc.2⟩
      simp [hnm]

theorem convCount_run (events : List MsgEvent) :
    ∀ rows (b : Nat) (u : Int),
      convCount (runMessages events rows) b u =
        max (convCount rows b u)
          (if events.any (fun e => e.botId == b && e.userId == u) then 1 else 0) := by
  induction events with
  | nil =>
    intro rows b u
    simp [runMessages]
  | cons e es ih =>
    intro rows b u
    have hrun : runMessages (e :: es) rows =
        runMessages es (trackConversation e.time e.botId e.userId e.chatId rows) := rfl
    rw [hrun, ih, convCount_track]
    by_cases heq : e.botId = b ∧ e.userId = u
    · obtain ⟨h1, h2⟩ := heq
      rw [if_pos ⟨h1, h2⟩]
      have hhead : (e.botId == b && e.userId == u) = true := by
        simp [h1, h2]
      rw [List.any_cons, hhead]
      simp only [Bool.true_or, if_true]
      cases hx : es.any (fun x => x.botId == b && x.userId == u) <;> simp
    · rw [if_neg heq]
      have hhead : (e.botId == b && e.userId == u) = false := by
        by_contra hc
        simp only [Bool.not_eq_false, Bool.and_eq_true, beq_iff_eq] at hc
        exact heq ⟨hc.1, hc.2⟩
      rw [List.any_cons, hhead]
      simp

theorem updateFirst_timeBound (now : Nat) (b : Nat) (u : Int) (T : Nat)
    (hnow : now ≤ T) :
    ∀ rows, (∀ r ∈ rows, r.lastMessageAt ≤ T) →
      ∀ r ∈ updateFirstConv now b u rows, r.lastMessageAt ≤ T := by
  intro rows
  induction rows with
  | nil => intro _ r hr; simp [updateFirstConv] at hr
  | cons x rest ih =>
    intro hb r hr
    unfold updateFirstConv at hr
    by_cases hx : convMatches b u x = true
    · rw [if_pos hx] at hr
      rcases List.mem_cons.mp hr with h | h
      · subst h; exact hnow
      · exact hb r (List.mem_cons_of_mem x h)
    · rw [if_neg hx] at hr
      rcases List.mem_cons.mp hr with h | h
      · subst h; exact hb _ (List.mem_cons_self _ rest)
      · exact ih (fun r hr => hb r (List.mem_cons_of_mem x hr)) r h

theorem track_timeBound (now : Nat) (b : Nat) (u : Int) (c : Int) (T : Nat)
    (rows : List ConvRow) (hb : ∀ r ∈ rows, r.lastMessageAt ≤ T) (hnow : now ≤ T) :
    ∀ r ∈ trackConversation now b u c rows, r.lastMessageAt ≤ T := by
  intro r hr
  unfold trackConversation at hr
  by_cases hany : rows.any (convMatches b u) = true
  · rw [if_pos hany] at hr
    exact updateFirst_timeBound now b u T hnow rows hb r hr
  · rw [if_neg hany] at hr
    rcases List.mem_append.mp hr with h | h
    · exact hb r h
    · have : r = newConvRow now b u c := by simpa using h
      subst this
      exact hnow

theorem run_timeBound (events : List MsgEvent) :
    ∀ (rows : List ConvRow) (T : Nat), (∀ r ∈ rows, r.lastMessageAt ≤ T) →
      (∀ e ∈ events, e.time ≤ T) →
      ∀ r ∈ runMessages events rows, r.lastMessageAt ≤ T := by
  induction events with
  | nil => intro rows T hb _ r hr; exact hb r hr
  | cons e es ih =>
    intro rows T hb he r hr
    have hstep := track_timeBound e.time e.botId e.userId e.chatId T rows hb
      (he e (List.mem_cons_self e es))
    exact ih _ T hstep (fun x hx => he x (List.mem_cons_of_mem e hx)) r hr

theorem find?_append_left {α : Type} (l1 l2 : List α) (p : α → Bool) (x : α)
    (h : l1.find? p = some x) : (l1 ++ l2).find? p = some x := by
  induction l1 with
  | nil => simp at h
  | cons a l1 ih =>
    rw [List.find?_cons] at h
    rcases hpa : p a with _ | _
    · rw [hpa] at h
      rw [List.cons_append, List.find?_cons, hpa]
      exact ih h
    · rw [hpa] at h
      rw [List.cons_append, List.find?_cons, hpa]
      exact h

theorem lastActivity_updateFirst_self (now : Nat) (b : Nat) (u : Int) :
    ∀ rows, rows.any (convMatches b u) = true →
      lastActivityOf (updateFirstConv now b u rows) b u = some now := by
  intro rows
  induction rows with
  | nil => intro h; simp at h
  | cons r rest ih =>
    intro hany
    unfold updateFirstConv lastActivityOf
    by_cases hr : convMatches b u r = true
    · rw [if_pos hr]
      have hr' : convMatches b u { r with lastMessageAt := now } = true := hr
      rw [List.find?_cons, hr']
      rfl
    · rw [if_neg hr]
      rw [List.find?_cons]
      rcases hpa : convMatches b u r with _ | _
      · have hany' : rest.any (convMatches b u) = true := by
          rw [List.any_cons, hpa] at hany
          simpa using hany
        exact ih hany'
      · exact absurd hpa (by simpa using hr)

theorem lastActivity_updateFirst_other (now : Nat) (b : Nat) (u : Int)
    (b' : Nat) (u' : Int) (hne : ¬(b = b' ∧ u = u')) :
    ∀ rows, lastActivityOf (updateFirstConv now b u rows) b' u' =
      lastActivityOf rows b' u' := by
  intro rows
  induction rows with
  | nil => rfl
  | cons r rest ih =>
    unfold updateFirstConv lastActivityOf
    by_cases hr : convMatches b u r = true
    · rw [if_pos hr]
      have hboth : convMatches b' u' r = false := by
        by_contra hc
        simp only [Bool.not_eq_false] at hc
        simp only [convMatches, Bool.and_eq_true, beq_iff_eq] at hr hc
        exact hne ⟨hr.1.symm.trans hc.1, hr.2.symm.trans hc.2⟩
      have hboth' : convMatches b' u' { r with lastMessageAt := now } = false := hboth
      rw [List.find?_cons, hboth', List.find?_cons, hboth]
    · rw [if_neg hr]
      rw [List.find?_cons, List.find?_cons]
      cases convMatches b' u' r
      · exact ih
      · rfl

theorem lastActivity_track_step (now : Nat) (b : Nat) (u : Int) (c : Int)
    (rows : List ConvRow) (b' : Nat) (u' : Int) (v : Nat)
    (hbound : ∀ r ∈ rows, r.lastMessageAt ≤ now)
    (h : lastActivityOf rows b' u' = some v) :
    ∃ w, lastActivityOf (trackConversation now b u c rows) b' u' = some w ∧ v ≤ w := by
  unfold trackConversation
  by_cases heq : b = b' ∧ u = u'
  · obtain ⟨rfl, rfl⟩ := heq
    have hany : rows.any (convMatches b u) = true := by
      unfold lastActivityOf at h
      rcases hf : rows.find? (convMatches b u) with _ | x
      · rw [hf] at h; simp at h
      · rw [List.any_eq_true]
        exact ⟨x, List.mem_of_find?_eq_some hf, List.find?_some hf⟩
    rw [if_pos hany]
    refine ⟨now, lastActivity_updateFirst_self now b u rows hany, ?_⟩
    unfold lastActivityOf at h
    rcases hf : rows.find? (convMatches b u) with _ | x
    · rw [hf] at h; simp at h
    · rw [hf] at h
      have hv : x.lastMessageAt = v := by simpa using h
      have := hbound x (List.mem_of_find?_eq_some hf)
      omega
  · by_cases hany : rows.any (convMatches b u) = true
    · rw [if_pos hany]
      exact ⟨v, by rw [lastActivity_updateFirst_other now b u b' u' heq rows]; exact h, le_refl v⟩
    · rw [if_neg hany]
      refine ⟨v, ?_, le_refl v⟩
      unfold lastActivityOf at h ⊢
      rcases hf : rows.find? (convMatches b' u') with _ | x
      · rw [hf] at h; simp at h
      · rw [hf] at h
        rw [find?_append_left _ _ _ x hf]
        exact h

theorem lastActivity_run_mono (events : List MsgEvent) :
    ∀ (rows : List ConvRow) (b : Nat) (u : Int) (v : Nat),
      (∀ r ∈ rows, ∀ e ∈ events, r.lastMessageAt ≤ e.time) →
      events.Pairwise (fun a b => a.time ≤ b.time) →
      lastActivityOf rows b u = some v →
      ∃ w, lastActivityOf (runMessages events rows) b u = some w ∧ v ≤ w := by
  induction events with
  | nil =>
    intro rows b u v _ _ h
    exact ⟨v, h, le_refl v⟩
  | cons e es ih =>
    intro rows b u v hb hp h
    have hbound : ∀ r ∈ rows, r.lastMessageAt ≤ e.time :=
      fun r hr => hb r hr e (List.mem_cons_self e es)
    obtain ⟨w1, hw1, hvw1⟩ :=
      lastActivity_track_step e.time e.botId e.userId e.chatId rows b u v hbound h
    have hp' := (List.pairwise_cons.mp hp)
    have hb' : ∀ r ∈ trackConversation e.time e.botId e.userId e.chatId rows,
        ∀ e' ∈ es, r.lastMessageAt ≤ e'.time := by
      intro r hr e' he'
      exact track_timeBound e.time e.botId e.userId e.chatId e'.time rows
        (fun x hx => le_trans (hbound x hx) (hp'.1 e' he')) (hp'.1 e' he') r hr
    obtain ⟨w, hw, hww⟩ := ih _ b u w1 hb' hp'.2 hw1
    exact ⟨w, hw, le_trans hvw1 hww⟩

/-- C7: dispatching any sorted-in-time sequence of inbound messages from an
empty table leaves exactly one `Conversation` row per touched
`(bot, participant)` pair (and none for untouched pairs), and the pair's
`last_message_at` is monotonically non-decreasing across the run (comparing
any prefix of the run with the full run). -/
theorem C7_conversation_upsert (l1 l2 : List MsgEvent)
    (hsorted : (l1 ++ l2).Pairwise (fun a b => a.time ≤ b.time)) :
    (∀ (b : Nat) (u : Int), convCount (runMessages (l1 ++ l2) []) b u =
      if (l1 ++ l2).any (fun e => e.botId == b && e.userId == u) then 1 else 0) ∧
    (∀ (b : Nat) (u : Int) (v w : Nat),
      lastActivityOf (runMessages l1 []) b u = some v →
      lastActivityOf (runMessages (l1 ++ l2) []) b u = some w → v ≤ w) := by
  constructor
  · intro b u
    have := convCount_run (l1 ++ l2) [] b u
    simpa [convCount] using this
  · intro b u v w h1 h2
    have hsplit := List.pairwise_append.mp hsorted
    have hrun : runMessages (l1 ++ l2) [] = runMessages l2 (runMessages l1 []) := by
      unfold runMessages
      exact List.foldl_append _ _ l1 l2
    have hb : ∀ r ∈ runMessages l1 [], ∀ e ∈ l2, r.lastMessageAt ≤ e.time := by
      intro r hr e he
      exact run_timeBound l1 [] e.time (by simp)
        (fun x hx => hsplit.2.2 x hx e he) r hr
    obtain ⟨w', hw', hvw'⟩ := lastActivity_run_mono l2 (runMessages l1 []) b u v hb
      hsplit.2.1 h1
    rw [hrun] at h2
    rw [hw'] at h2
    have : w' = w := by simpa using h2
    omega

/-- First message of the C7 witness run. -/
def c7Event1 : MsgEvent := { time := 10, botId := 1, userId := 5, chatId := 99 }

/-- Second message of the C7 witness run. -/
def c7Event2 : MsgEvent := { time := 20, botId := 1, userId := 5, chatId := 99 }

/-- C7 witness: two messages from the same participant leave one row, with
a non-decreasing `last_message_at`. -/
theorem C7_conversation_upsert_witness :
    convCount (runMessages ([c7Event1] ++ [c7Event2]) []) 1 5 = 1 ∧ (10 : Nat) ≤ 20 :=
  ⟨by
    have h := (C7_conversation_upsert [c7Event1] [c7Event2] (by decide)).1 1 5
    simpa [c7Event1, c7Event2] using h,
   (C7_conversation_upsert [c7Event1] [c7Event2] (by decide)).2 1 5 10 20 rfl rfl⟩

/-! ## Lifecycle notifier (`services/notification_service.py`)

`check_and_send_notifications` runs four sweeps in order
(trial-expiring-in-3-days, trial-expired, subscription-expiring-in-1-day,
subscription-expired).  Each sweep snapshots the eligible tenants, skips a
tenant who already has a `UserNotification` of that type dated today
(`created_at >= current_time.date()`), and otherwise sends the notification
(persisting a `UserNotification` row when an active template exists and no
internal exception occurs) and, for the two "expired" sweeps, deactivates
the tenant's bots — only the paid-expired sweep also clears the
subscription's `is_active` flag, and no sweep ever touches the runtime
registry (`TelegramService.stop_bot` is never invoked here).

Timestamps are minutes; a calendar day is `1440` minutes and
`current_time.date()` is `dayStart`. -/

/-- `NotificationType`. -/
inductive NType where
  | trialExpiring3 : NType
  | trialExpired : NType
  | subExpiring1 : NType
  | subExpired : NType
  deriving Repr, DecidableEq

/-- `SubscriptionType`. -/
inductive SubTy where
  | free : SubTy
  | starter : SubTy
  | basic : SubTy
  | premium : SubTy
  deriving Repr, DecidableEq

/-- The fields of a `Subscription` row the sweeps consult. -/
structure SubRow where
  subType : SubTy
  endDate : Option Nat
  isActive : Bool
  deriving Repr, DecidableEq

/-- A tenant (`User` row joined with its subscription); `sendFails` is the
oracle flag for an internal exception inside `_send_notification` (caught
there: rollback, no row persisted, `False` returned). -/
structure Tenant where
  id : Nat
  active : Bool
  sub : SubRow
  sendFails : Bool
  deriving Repr, DecidableEq

/-- A `UserNotification` row (the fields the idempotency check reads). -/
structure NotifRow where
  userId : Nat
  ntype : NType
  createdAt : Nat
  deriving Repr, DecidableEq

/-- The fields of a `Bot` row the notifier touches. -/
structure BotRow where
  id : Nat
  userId : Nat
  isActive : Bool
  token : Option String
  deriving Repr, DecidableEq

/-- The store plus the runtime registry as seen by the notifier.
`templates` lists the notification types with an active
`NotificationTemplate` row; `running` is the bot-id registry of the
Bot Runtime Manager (which the notifier never touches). -/
structure SweepState where
  tenants : List Tenant
  bots : List BotRow
  notifs : List NotifRow
  running : List Nat
  templates : List NType
  deriving Repr, DecidableEq

/-- Midnight of the day containing `t` (`current_time.date()`). -/
def dayStart (t : Nat) : Nat :=
  (t / 1440) * 1440

/-- Eligibility of `_check_trial_expiring_3_days`: free, active, end date
within one hour of three days from now. -/
def trialExpiring3Eligible (now : Nat) (t : Tenant) : Bool :=
  t.sub.subType == SubTy.free &&
  (match t.sub.endDate with
   | some d => decide (now + 3 * 1440 - 60 ≤ d) && decide (d ≤ now + 3 * 1440 + 60)
   | none => false) &&
  t.sub.isActive && t.active

/-- Eligibility of `_check_expired_trials`: free, active, end date passed. -/
def trialExpiredEligible (now : Nat) (t : Tenant) : Bool :=
  t.sub.subType == SubTy.free &&
  (match t.sub.endDate with
   | some d => decide (d ≤ now)
   | none => false) &&
  t.sub.isActive && t.active

/-- `subscription_type in [BASIC, PREMIUM]`. -/
def paidType (s : SubTy) : Bool :=
  s == SubTy.basic || s == SubTy.premium

/-- Eligibility of `_check_subscription_expiring_1_day`. -/
def subExpiring1Eligible (now : Nat) (t : Tenant) : Bool :=
  paidType t.sub.subType &&
  (match t.sub.endDate with
   | some d => decide (now + 1440 - 60 ≤ d) && decide (d ≤ now + 1440 + 60)
   | none => false) &&
  t.sub.isActive && t.active

/-- Eligibility of `_check_expired_subscriptions`. -/
def subExpiredEligible (now : Nat) (t : Tenant) : Bool :=
  paidType t.sub.subType &&
  (match t.sub.endDate with
   | some d => decide (d ≤ now)
   | none => false) &&
  t.sub.isActive && t.active

/-- The per-tenant dedup query: a `UserNotification` of this type with
`created_at >= current_time.date()` already exists. -/
def notifExistsToday (notifs : List NotifRow) (uid : Nat) (k : NType) (now : Nat) : Bool :=
  notifs.any (fun n => n.userId == uid && n.ntype == k && decide (dayStart now ≤ n.createdAt))

/-- A fresh `UserNotification` row, stamped with the current time. -/
def newNotifRow (uid : Nat) (k : NType) (now : Nat) : NotifRow :=
  { userId := uid, ntype := k, createdAt := now }

/-- `NotificationService._send_notification`: persists the row exactly when
an active template exists and no internal exception occurs (the fan-out to
the tenant's bots only fills the `is_sent`/`error_message` fields of the
same single row and is irrelevant to the claims). -/
def sendNotification (st : SweepState) (t : Tenant) (k : NType) (now : Nat) : SweepState :=
  if st.templates.contains k then
    if t.sendFails then st
    else { st with notifs := st.notifs ++ [newNotifRow t.id k now] }
  else st

/-- `NotificationService._deactivate_user_bots`: clears `is_active` on every
bot of the tenant; never calls the runtime's `stop_bot`. -/
def deactivateUserBots (st : SweepState) (uid : Nat) : SweepState :=
  { st with
    bots := st.bots.map (fun b => if b.userId == uid then { b with isActive := false } else b) }

/-- `user.subscription.is_active = False` (paid-expired sweep only). -/
def deactivateSubscription (st : SweepState) (uid : Nat) : SweepState :=
  { st with
    tenants := st.tenants.map (fun u => if u.id == uid then { u with sub := { u.sub with isActive := false } } else u) }

/-- Loop body of `_check_trial_expiring_3_days`: skip if already notified
today, else notify (no side effects beyond the notification). -/
def trialExpiring3Step (now : Nat) (s : SweepState) (t : Tenant) : SweepState :=
  if notifExistsToday s.notifs t.id NType.trialExpiring3 now then s
  else sendNotification s t NType.trialExpiring3 now

/-- `NotificationService._check_trial_expiring_3_days`. -/
def checkTrialExpiring3 (now : Nat) (st : SweepState) : SweepState :=
  (st.tenants.filter (trialExpiring3Eligible now)).foldl (trialExpiring3Step now) st

/-- Loop body of `_check_expired_trials`: skip if already notified today,
else notify and deactivate the tenant's bots; the subscription flag is left
untouched. -/
def trialExpiredStep (now : Nat) (s : SweepState) (t : Tenant) : SweepState :=
  if notifExistsToday s.notifs t.id NType.trialExpired now then s
  else deactivateUserBots (sendNotification s t NType.trialExpired now) t.id

/-- `NotificationService._check_expired_trials`. -/
def checkExpiredTrials (now : Nat) (st : SweepState) : SweepState :=
  (st.tenants.filter (trialExpiredEligible now)).foldl (trialExpiredStep now) st

/-- Loop body of `_check_subscription_expiring_1_day`. -/
def subExpiring1Step (now : Nat) (s : SweepState) (t : Tenant) : SweepState :=
  if notifExistsToday s.notifs t.id NType.subExpiring1 now then s
  else sendNotification s t NType.subExpiring1 now

/-- `NotificationService._check_subscription_expiring_1_day`. -/
def checkSubExpiring1 (now : Nat) (st : SweepState) : SweepState :=
  (st.tenants.filter (subExpiring1Eligible now)).foldl (subExpiring1Step now) st

/-- Loop body of `_check_expired_subscriptions`: skip if already notified
today, else notify, clear the subscription flag and deactivate the tenant's
bots. -/
def subExpiredStep (now : Nat) (s : SweepState) (t : Tenant) : SweepState :=
  if notifExistsToday s.notifs t.id NType.subExpired now then s
  else deactivateUserBots (deactivateSubscription (sendNotification s t NType.subExpired now) t.id) t.id

/-- `NotificationService._check_expired_subscriptions`. -/
def checkExpiredSubscriptions (now : Nat) (st : SweepState) : SweepState :=
  (st.tenants.filter (subExpiredEligible now)).foldl (subExpiredStep now) st

/-- `NotificationService.check_and_send_notifications` (one sweep). -/
def checkAndSendNotifications (now : Nat) (st : SweepState) : SweepState :=
  checkExpiredSubscriptions now
    (checkSubExpiring1 now
      (checkExpiredTrials now
        (checkTrialExpiring3 now st)))

/-- Tenant of the C2 counterexample: active, free, trial expired. -/
def c2Tenant : Tenant :=
  { id := 1, active := true,
    sub := { subType := SubTy.free, endDate := some 0, isActive := true },
    sendFails := false }

/-- Their single active bot, which also has a running connection. -/
def c2Bot : BotRow :=
  { id := 10, userId := 1, isActive := true, token := some "T" }

/-- C2 counterexample state: one trial-expired tenant, one running bot, all
templates installed, no prior notifications. -/
def c2State : SweepState :=
  { tenants := [c2Tenant], bots := [c2Bot], notifs := [], running := [10],
    templates := [NType.trialExpiring3, NType.trialExpired,
                  NType.subExpiring1, NType.subExpired] }

/-- C2 counterexample: the sweep detects the tenant's trial-expired
transition and deactivates the bot, but the tenant's subscription flag is
still active afterwards and the running connection is still registered — no
runtime stop was triggered. -/
theorem C2_counterexample :
    trialExpiredEligible 2000 c2Tenant = true ∧
    (checkAndSendNotifications 2000 c2State).tenants.map (fun t => t.sub.isActive) = [true] ∧
    (checkAndSendNotifications 2000 c2State).bots.map (fun b => b.isActive) = [false] ∧
    (checkAndSendNotifications 2000 c2State).running = [10] :=
  ⟨rfl, rfl, rfl, rfl⟩

theorem sendNotification_bots (s : SweepState) (t : Tenant) (k : NType) (now : Nat) :
    (sendNotification s t k now).bots = s.bots := by
  unfold sendNotification
  split_ifs <;> rfl

theorem sendNotification_tenants (s : SweepState) (t : Tenant) (k : NType) (now : Nat) :
    (sendNotification s t k now).tenants = s.tenants := by
  unfold sendNotification
  split_ifs <;> rfl

theorem sendNotification_running (s : SweepState) (t : Tenant) (k : NType) (now : Nat) :
    (sendNotification s t k now).running = s.running := by
  unfold sendNotification
  split_ifs <;> rfl

theorem sendNotification_notifs_cases (s : SweepState) (t : Tenant) (k : NType) (now : Nat) :
    (sendNotification s t k now).notifs = s.notifs ∨
    (sendNotification s t k now).notifs = s.notifs ++ [newNotifRow t.id k now] := by
  unfold sendNotification
  split_ifs <;> simp

/-- All of the tenant's bots are deactivated in this state. -/
def botsOffFor (s : SweepState) (uid : Nat) : Prop :=
  ∀ b ∈ s.bots, b.userId = uid → b.isActive = false

/-- The tenant's subscription flag is cleared in this state. -/
def subOffFor (s : SweepState) (uid : Nat) : Prop :=
  ∀ u ∈ s.tenants, u.id = uid → u.sub.isActive = false

theorem botsOffFor_deactivate_self (s : SweepState) (uid : Nat) :
    botsOffFor (deactivateUserBots s uid) uid := by
  intro b hb hbu
  unfold deactivateUserBots at hb
  simp only [List.mem_map] at hb
  obtain ⟨a, ha, hab⟩ := hb
  by_cases h : (a.userId == uid) = true
  · rw [if_pos h] at hab
    rw [← hab]
  · rw [if_neg h] at hab
    subst hab
    exact absurd (by simp [hbu]) h

theorem botsOffFor_deactivate_pres (s : SweepState) (uid uid' : Nat)
    (hp : botsOffFor s uid) : botsOffFor (deactivateUserBots s uid') uid := by
  intro b hb hbu
  unfold deactivateUserBots at hb
  simp only [List.mem_map] at hb
  obtain ⟨a, ha, hab⟩ := hb
  by_cases h : (a.userId == uid') = true
  · rw [if_pos h] at hab
    rw [← hab]
  · rw [if_neg h] at hab
    subst hab
    exact hp a ha hbu

theorem subOffFor_deactivateSub_self (s : SweepState) (uid : Nat) :
    subOffFor (deactivateSubscription s uid) uid := by
  intro u hu huid
  unfold deactivateSubscription at hu
  simp only [List.mem_map] at hu
  obtain ⟨a, ha, hau⟩ := hu
  by_cases h : (a.id == uid) = true
  · rw [if_pos h] at hau
    rw [← hau]
  · rw [if_neg h] at hau
    subst hau
    exact absurd (by simp [huid]) h

theorem subOffFor_deactivateSub_pres (s : SweepState) (uid uid' : Nat)
    (hp : subOffFor s uid) : subOffFor (deactivateSubscription s uid') uid := by
  intro u hu huid
  unfold deactivateSubscription at hu
  simp only [List.mem_map] at hu
  obtain ⟨a, ha, hau⟩ := hu
  by_cases h : (a.id == uid') = true
  · rw [if_pos h] at hau
    rw [← hau]
  · rw [if_neg h] at hau
    subst hau
    exact hp a ha huid

theorem notifExists_send_ne (s : SweepState) (t : Tenant) (k' : NType)
    (now : Nat) (uid : Nat) (k : NType) (hne : t.id ≠ uid)
    (h : notifExistsToday s.notifs uid k now = false) :
    notifExistsToday (sendNotification s t k' now).notifs uid k now = false := by
  rcases sendNotification_notifs_cases s t k' now with hc | hc <;> rw [hc]
  · exact h
  · unfold notifExistsToday at h ⊢
    rw [List.any_append, h]
    simp [newNotifRow, hne]

theorem trialExpiredStep_tenants (now : Nat) (s : SweepState) (t : Tenant) :
    (trialExpiredStep now s t).tenants = s.tenants := by
  unfold trialExpiredStep
  split_ifs
  · rfl
  · show (sendNotification s t NType.trialExpired now).tenants = s.tenants
    exact sendNotification_tenants s t NType.trialExpired now

theorem trialExpiredStep_running (now : Nat) (s : SweepState) (t : Tenant) :
    (trialExpiredStep now s t).running = s.running := by
  unfold trialExpiredStep
  split_ifs
  · rfl
  · show (sendNotification s t NType.trialExpired now).running = s.running
    exact sendNotification_running s t NType.trialExpired now

theorem trialExpiredStep_botsOff_pres (now : Nat) (s : SweepState) (u : Tenant)
    (uid : Nat) (hp : botsOffFor s uid) :
    botsOffFor (trialExpiredStep now s u) uid := by
  unfold trialExpiredStep
  split_ifs
  · exact hp
  · refine botsOffFor_deactivate_pres _ uid u.id ?_
    intro b hb
    rw [sendNotification_bots] at hb
    exact hp b hb

theorem trialExpiredStep_notif_pres (now : Nat) (s : SweepState) (u : Tenant)
    (uid : Nat) (k : NType) (hne : u.id ≠ uid)
    (h : notifExistsToday s.notifs uid k now = false) :
    notifExistsToday (trialExpiredStep now s u).notifs uid k now = false := by
  unfold trialExpiredStep
  split_ifs
  · exact h
  · show notifExistsToday (deactivateUserBots _ _).notifs uid k now = false
    exact notifExists_send_ne s u NType.trialExpired now uid k hne h

theorem foldl_trial_tenants (now : Nat) (l : List Tenant) :
    ∀ s : SweepState, (l.foldl (trialExpiredStep now) s).tenants = s.tenants := by
  induction l with
  | nil => intro s; rfl
  | cons u l ih =>
    intro s
    rw [List.foldl_cons, ih, trialExpiredStep_tenants]

theorem foldl_trial_running (now : Nat) (l : List Tenant) :
    ∀ s : SweepState, (l.foldl (trialExpiredStep now) s).running = s.running := by
  induction l with
  | nil => intro s; rfl
  | cons u l ih =>
    intro s
    rw [List.foldl_cons, ih, trialExpiredStep_running]

theorem foldl_trial_botsOff (now : Nat) (l : List Tenant) (uid : Nat) :
    ∀ s : SweepState, botsOffFor s uid →
      botsOffFor (l.foldl (trialExpiredStep now) s) uid := by
  induction l with
  | nil => intro s hp; exact hp
  | cons u l ih =>
    intro s hp
    rw [List.foldl_cons]
    exact ih _ (trialExpiredStep_botsOff_pres now s u uid hp)

theorem foldl_trial_notif (now : Nat) (l : List Tenant) (uid : Nat) (k : NType) :
    ∀ s : SweepState, (∀ u ∈ l, u.id ≠ uid) →
      notifExistsToday s.notifs uid k now = false →
      notifExistsToday ((l.foldl (trialExpiredStep now) s)).notifs uid k now = false := by
  induction l with
  | nil => intro s _ h; exact h
  | cons u l ih =>
    intro s hne h
    rw [List.foldl_cons]
    exact ih _ (fun x hx => hne x (List.mem_cons_of_mem u hx))
      (trialExpiredStep_notif_pres now s u uid k (hne u (List.mem_cons_self u l)) h)

theorem subExpiredStep_running (now : Nat) (s : SweepState) (t : Tenant) :
    (subExpiredStep now s t).running = s.running := by
  unfold subExpiredStep
  split_ifs
  · rfl
  · show (sendNotification s t NType.subExpired now).running = s.running
    exact sendNotification_running s t NType.subExpired now

theorem subExpiredStep_botsOff_pres (now : Nat) (s : SweepState) (u : Tenant)
    (uid : Nat) (hp : botsOffFor s uid) :
    botsOffFor (subExpiredStep now s u) uid := by
  unfold subExpiredStep
  split_ifs
  · exact hp
  · refine botsOffFor_deactivate_pres _ uid u.id ?_
    intro b hb
    show b.userId = uid → b.isActive = false
    have hb' : b ∈ (sendNotification s u NType.subExpired now).bots := hb
    rw [sendNotification_bots] at hb'
    exact hp b hb'

theorem subExpiredStep_subOff_pres (now : Nat) (s : SweepState) (u : Tenant)
    (uid : Nat) (hp : subOffFor s uid) :
    subOffFor (subExpiredStep now s u) uid := by
  unfold subExpiredStep
  split_ifs
  · exact hp
  · show subOffFor (deactivateUserBots (deactivateSubscription _ _) _) uid
    refine subOffFor_deactivateSub_pres _ uid u.id ?_
    intro x hx
    rw [sendNotification_tenants] at hx
    exact hp x hx

theorem subExpiredStep_notif_pres (now : Nat) (s : SweepState) (u : Tenant)
    (uid : Nat) (k : NType) (hne : u.id ≠ uid)
    (h : notifExistsToday s.notifs uid k now = false) :
    notifExistsToday (subExpiredStep now s u).notifs uid k now = false := by
  unfold subExpiredStep
  split_ifs
  · exact h
  · show notifExistsToday (deactivateUserBots (deactivateSubscription _ _) _).notifs uid k now = false
    exact notifExists_send_ne s u NType.subExpired now uid k hne h

theorem foldl_sub_running (now : Nat) (l : List Tenant) :
    ∀ s : SweepState, (l.foldl (subExpiredStep now) s).running = s.running := by
  induction l with
  | nil => intro s; rfl
  | cons u l ih =>
    intro s
    rw [List.foldl_cons, ih, subExpiredStep_running]

theorem foldl_sub_botsOff (now : Nat) (l : List Tenant) (uid : Nat) :
    ∀ s : SweepState, botsOffFor s uid →
      botsOffFor (l.foldl (subExpiredStep now) s) uid := by
  induction l with
  | nil => intro s hp; exact hp
  | cons u l ih =>
    intro s hp
    rw [List.foldl_cons]
    exact ih _ (subExpiredStep_botsOff_pres now s u uid hp)

theorem foldl_sub_subOff (now : Nat) (l : List Tenant) (uid : Nat) :
    ∀ s : SweepState, subOffFor s uid →
      subOffFor (l.foldl (subExpiredStep now) s) uid := by
  induction l with
  | nil => intro s hp; exact hp
  | cons u l ih =>
    intro s hp
    rw [List.foldl_cons]
    exact ih _ (subExpiredStep_subOff_pres now s u uid hp)

theorem foldl_sub_notif (now : Nat) (l : List Tenant) (uid : Nat) (k : NType) :
    ∀ s : SweepState, (∀ u ∈ l, u.id ≠ uid) →
      notifExistsToday s.notifs uid k now = false →
      notifExistsToday ((l.foldl (subExpiredStep now) s)).notifs uid k now = false := by
  induction l with
  | nil => intro s _ h; exact h
  | cons u l ih =>
    intro s hne h
    rw [List.foldl_cons]
    exact ih _ (fun x hx => hne x (List.mem_cons_of_mem u hx))
      (subExpiredStep_notif_pres now s u uid k (hne u (List.mem_cons_self u l)) h)

theorem trialExpiredStep_of_not_exists (now : Nat) (s : SweepState) (t : Tenant)
    (h : notifExistsToday s.notifs t.id NType.trialExpired now = false) :
    trialExpiredStep now s t =
      deactivateUserBots (sendNotification s t NType.trialExpired now) t.id := by
  unfold trialExpiredStep
  rw [if_neg (by simp [h])]

theorem subExpiredStep_of_not_exists (now : Nat) (s : SweepState) (t : Tenant)
    (h : notifExistsToday s.notifs t.id NType.subExpired now = false) :
    subExpiredStep now s t =
      deactivateUserBots
        (deactivateSubscription (sendNotification s t NType.subExpired now) t.id) t.id := by
  unfold subExpiredStep
  rw [if_neg (by simp [h])]

/-- Splitting an eligible tenant out of the snapshot: all tenants processed
before it have a different id. -/
theorem eligible_split (st : SweepState) (t : Tenant) (p : Tenant → Bool)
    (hmem : t ∈ st.tenants) (helig : p t = true)
    (hids : st.tenants.Pairwise (fun a b => a.id ≠ b.id)) :
    ∃ l1 l2, st.tenants.filter p = l1 ++ t :: l2 ∧ (∀ u ∈ l1, u.id ≠ t.id) := by
  have hmemf : t ∈ st.tenants.filter p := List.mem_filter.mpr ⟨hmem, helig⟩
  obtain ⟨l1, l2, hsplit⟩ := List.append_of_mem hmemf
  have hpw : (st.tenants.filter p).Pairwise (fun a b => a.id ≠ b.id) :=
    List.Pairwise.sublist (List.filter_sublist st.tenants) hids
  rw [hsplit] at hpw
  refine ⟨l1, l2, hsplit, ?_⟩
  intro u hu
  have := (List.pairwise_append.mp hpw).2.2 u hu t (List.mem_cons_self t l2)
  exact this

/-- C2 (amended): the two "expired" sweeps deactivate the eligible tenant's
bots, but only the paid-expired sweep clears the subscription `is_active`
flag — the trial-expired sweep leaves the tenants table unchanged — and
neither sweep ever touches the Bot Runtime Manager's registry: bots with a
running connection are left running, no stop is triggered. -/
theorem C2_expired_sweep_effects (now : Nat) (st : SweepState) (t : Tenant)
    (hmem : t ∈ st.tenants)
    (hids : st.tenants.Pairwise (fun a b => a.id ≠ b.id)) :
    ((checkExpiredTrials now st).tenants = st.tenants ∧
     (checkExpiredTrials now st).running = st.running ∧
     (trialExpiredEligible now t = true →
       notifExistsToday st.notifs t.id NType.trialExpired now = false →
       botsOffFor (checkExpiredTrials now st) t.id)) ∧
    ((checkExpiredSubscriptions now st).running = st.running ∧
     (subExpiredEligible now t = true →
       notifExistsToday st.notifs t.id NType.subExpired now = false →
       botsOffFor (checkExpiredSubscriptions now st) t.id ∧
       subOffFor (checkExpiredSubscriptions now st) t.id)) := by
  constructor
  · refine ⟨foldl_trial_tenants now _ st, foldl_trial_running now _ st, ?_⟩
    intro helig hnotif
    obtain ⟨l1, l2, hsplit, hne⟩ :=
      eligible_split st t (trialExpiredEligible now) hmem helig hids
    unfold checkExpiredTrials
    rw [hsplit, List.foldl_append, List.foldl_cons]
    refine foldl_trial_botsOff now l2 t.id _ ?_
    have hq := foldl_trial_notif now l1 t.id NType.trialExpired st hne hnotif
    rw [trialExpiredStep_of_not_exists now _ t hq]
    exact botsOffFor_deactivate_self _ t.id
  · refine ⟨foldl_sub_running now _ st, ?_⟩
    intro helig hnotif
    obtain ⟨l1, l2, hsplit, hne⟩ :=
      eligible_split st t (subExpiredEligible now) hmem helig hids
    unfold checkExpiredSubscriptions
    rw [hsplit, List.foldl_append, List.foldl_cons]
    have hq := foldl_sub_notif now l1 t.id NType.subExpired st hne hnotif
    constructor
    · refine foldl_sub_botsOff now l2 t.id _ ?_
      rw [subExpiredStep_of_not_exists now _ t hq]
      exact botsOffFor_deactivate_self _ t.id
    · refine foldl_sub_subOff now l2 t.id _ ?_
      rw [subExpiredStep_of_not_exists now _ t hq]
      intro x hx
      exact subOffFor_deactivateSub_self _ t.id x hx

/-- C2 witness: the amended sweep effects applied to the concrete
counterexample state. -/
theorem C2_expired_sweep_effects_witness :
    (checkExpiredTrials 2000 c2State).tenants = c2State.tenants ∧
    (checkExpiredTrials 2000 c2State).running = c2State.running ∧
    botsOffFor (checkExpiredTrials 2000 c2State) c2Tenant.id :=
  ⟨(C2_expired_sweep_effects 2000 c2State c2Tenant (by decide) (by decide)).1.1,
   (C2_expired_sweep_effects 2000 c2State c2Tenant (by decide) (by decide)).1.2.1,
   (C2_expired_sweep_effects 2000 c2State c2Tenant (by decide) (by decide)).1.2.2 rfl rfl⟩

/-! ### Daily idempotency of the notifier (C3) -/

/-- Number of `UserNotification` rows of a tenant and type dated within
calendar day `D`. -/
def notifCountOn (notifs : List NotifRow) (uid : Nat) (k : NType) (D : Nat) : Nat :=
  (notifs.filter (fun n => n.userId == uid && n.ntype == k && n.createdAt / 1440 == D)).length

theorem notifExists_of_countOn_pos (N : List NotifRow) (uid : Nat) (k : NType)
    (now D : Nat) (hday : now / 1440 = D)
    (hpos : 0 < notifCountOn N uid k D) :
    notifExistsToday N uid k now = true := by
  unfold notifCountOn at hpos
  obtain ⟨n, hn⟩ := List.exists_mem_of_length_pos hpos
  have hmem := List.mem_filter.mp hn
  obtain ⟨hnN, hflt⟩ := hmem
  simp only [Bool.and_eq_true, beq_iff_eq] at hflt
  unfold notifExistsToday
  rw [List.any_eq_true]
  refine ⟨n, hnN, ?_⟩
  have h4 : dayStart now ≤ n.createdAt := by
    unfold dayStart
    rw [hday]
    have := hflt.2
    omega
  simp [hflt.1.1, hflt.1.2, h4]

theorem countOn_send_le (s : SweepState) (u : Tenant) (k' : NType)
    (now uid : Nat) (k : NType) (D : Nat)
    (hday : now / 1440 = D)
    (hguard : notifExistsToday s.notifs u.id k' now = false)
    (hinv : notifCountOn s.notifs uid k D ≤ 1) :
    notifCountOn (sendNotification s u k' now).notifs uid k D ≤ 1 := by
  rcases sendNotification_notifs_cases s u k' now with hc | hc <;> rw [hc]
  · exact hinv
  · unfold notifCountOn
    rw [List.filter_append, List.length_append]
    by_cases hmatch : ((newNotifRow u.id k' now).userId == uid &&
        ((newNotifRow u.id k' now).ntype == k) &&
        ((newNotifRow u.id k' now).createdAt / 1440 == D)) = true
    · simp only [newNotifRow, Bool.and_eq_true, beq_iff_eq] at hmatch
      obtain ⟨⟨hu, hk⟩, _⟩ := hmatch
      have h0 : notifCountOn s.notifs uid k D = 0 := by
        by_contra hne
        have hpos : 0 < notifCountOn s.notifs uid k D := Nat.pos_of_ne_zero hne
        have := notifExists_of_countOn_pos s.notifs uid k now D hday hpos
        rw [hu, hk] at hguard
        rw [this] at hguard
        exact Bool.noConfusion hguard
      unfold notifCountOn at h0
      rw [h0]
      have : (([newNotifRow u.id k' now] : List NotifRow).filter
          (fun n => n.userId == uid && n.ntype == k && n.createdAt / 1440 == D)).length ≤ 1 := by
        rw [List.filter_cons]
        split_ifs <;> simp
      omega
    · rw [List.filter_cons, if_neg (by simpa using hmatch)]
      simpa using hinv

theorem countOn_trialExpiring3Step (now : Nat) (s : SweepState) (u : Tenant)
    (uid : Nat) (k : NType) (D : Nat) (hday : now / 1440 = D)
    (hinv : notifCountOn s.notifs uid k D ≤ 1) :
    notifCountOn (trialExpiring3Step now s u).notifs uid k D ≤ 1 := by
  unfold trialExpiring3Step
  split_ifs with hex
  · exact hinv
  · exact countOn_send_le s u NType.trialExpiring3 now uid k D hday (by simpa using hex) hinv

theorem countOn_trialExpiredStep (now : Nat) (s : SweepState) (u : Tenant)
    (uid : Nat) (k : NType) (D : Nat) (hday : now / 1440 = D)
    (hinv : notifCountOn s.notifs uid k D ≤ 1) :
    notifCountOn (trialExpiredStep now s u).notifs uid k D ≤ 1 := by
  unfold trialExpiredStep
  split_ifs with hex
  · exact hinv
  · show notifCountOn (deactivateUserBots _ _).notifs uid k D ≤ 1
    exact countOn_send_le s u NType.trialExpired now uid k D hday (by simpa using hex) hinv

theorem countOn_subExpiring1Step (now : Nat) (s : SweepState) (u : Tenant)
    (uid : Nat) (k : NType) (D : Nat) (hday : now / 1440 = D)
    (hinv : notifCountOn s.notifs uid k D ≤ 1) :
    notifCountOn (subExpiring1Step now s u).notifs uid k D ≤ 1 := by
  unfold subExpiring1Step
  split_ifs with hex
  · exact hinv
  · exact countOn_send_le s u NType.subExpiring1 now uid k D hday (by simpa using hex) hinv

theorem countOn_subExpiredStep (now : Nat) (s : SweepState) (u : Tenant)
    (uid : Nat) (k : NType) (D : Nat) (hday : now / 1440 = D)
    (hinv : notifCountOn s.notifs uid k D ≤ 1) :
    notifCountOn (subExpiredStep now s u).notifs uid k D ≤ 1 := by
  unfold subExpiredStep
  split_ifs with hex
  · exact hinv
  · show notifCountOn (deactivateUserBots (deactivateSubscription _ _) _).notifs uid k D ≤ 1
    exact countOn_send_le s u NType.subExpired now uid k D hday (by simpa using hex) hinv

theorem countOn_foldl (uid : Nat) (k : NType) (D : Nat)
    (step : SweepState → Tenant → SweepState)
    (hstep : ∀ s u, notifCountOn s.notifs uid k D ≤ 1 →
      notifCountOn (step s u).notifs uid k D ≤ 1) :
    ∀ (l : List Tenant) (s : SweepState), notifCountOn s.notifs uid k D ≤ 1 →
      notifCountOn (l.foldl step s).notifs uid k D ≤ 1 := by
  intro l
  induction l with
  | nil => intro s h; exact h
  | cons u l ih =>
    intro s h
    rw [List.foldl_cons]
    exact ih _ (hstep s u h)

theorem countOn_sweep (now : Nat) (st : SweepState) (uid : Nat) (k : NType)
    (D : Nat) (hday : now / 1440 = D)
    (hinv : notifCountOn st.notifs uid k D ≤ 1) :
    notifCountOn (checkAndSendNotifications now st).notifs uid k D ≤ 1 := by
  unfold checkAndSendNotifications checkTrialExpiring3 checkExpiredTrials
    checkSubExpiring1 checkExpiredSubscriptions
  refine countOn_foldl uid k D _ (fun s u h => countOn_subExpiredStep now s u uid k D hday h) _ _ ?_
  refine countOn_foldl uid k D _ (fun s u h => countOn_subExpiring1Step now s u uid k D hday h) _ _ ?_
  refine countOn_foldl uid k D _ (fun s u h => countOn_trialExpiredStep now s u uid k D hday h) _ _ ?_
  exact countOn_foldl uid k D _ (fun s u h => countOn_trialExpiring3Step now s u uid k D hday h) _ _ hinv

/-- C3: at most one `UserNotification` of a given type per tenant per
calendar day — if the invariant holds of the store, any number of sweep runs
during the same day preserves it (the dedup query
`created_at >= current_time.date()` blocks every later same-day send). -/
theorem C3_daily_idempotency (times : List Nat) (st : SweepState)
    (uid : Nat) (k : NType) (D : Nat)
    (htimes : ∀ tm ∈ times, tm / 1440 = D)
    (hinit : notifCountOn st.notifs uid k D ≤ 1) :
    notifCountOn
      ((times.foldl (fun s tm => checkAndSendNotifications tm s) st).notifs)
      uid k D ≤ 1 := by
  induction times generalizing st with
  | nil => exact hinit
  | cons tm times ih =>
    rw [List.foldl_cons]
    exact ih _ (fun x hx => htimes x (List.mem_cons_of_mem tm hx))
      (countOn_sweep tm st uid k D (htimes tm (List.mem_cons_self tm times)) hinit)

/-- Tenant of the C3 witness: trial expired, so both a notification and the
deactivation side effect fire on the first sweep of the day. -/
def c3Tenant : Tenant :=
  { id := 1, active := true,
    sub := { subType := SubTy.free, endDate := some 0, isActive := true },
    sendFails := false }

/-- C3 witness state: one eligible tenant, all templates installed. -/
def c3State : SweepState :=
  { tenants := [c3Tenant], bots := [], notifs := [], running := [],
    templates := [NType.trialExpiring3, NType.trialExpired,
                  NType.subExpiring1, NType.subExpired] }

/-- C3 witness: two same-day sweeps over a state that sends on the first
run still leave at most one trial-expired notification for the tenant. -/
theorem C3_daily_idempotency_witness :
    notifCountOn
      (([600, 700].foldl (fun s tm => checkAndSendNotifications tm s) c3State).notifs)
      1 NType.trialExpired 0 ≤ 1 :=
  C3_daily_idempotency [600, 700] c3State 1 NType.trialExpired 0
    (by decide) (by decide)

end BotFactory
